import Mathlib

/-!
Verification of the GDAL JPEG-XL driver (frmts/jpegxl/jpegxl.cpp) against its
natural-language specification.

The development shallowly embeds the driver's pure computations (quality to
distance conversion, bit-depth rescaling, JPEG marker-segment splicing and
sanitization) as executable Lean functions over `Nat` / `ℚ` / `List Nat`, and
the event-driven decode loops (initial open loop, full-image decode loop,
pixel-access layer) as explicit step functions folded over a list of decoder
events.  Machine floats of the distance computation are modelled with exact
rationals: every claim under study only exercises inputs (quality 100, 30,
absent) on which the float computation is exact or whose distinction from the
claimed value is far larger than any rounding error.
-/

namespace JPEGXL

/-! ## Encoder distance selection (CreateCopy, jpegxl.cpp lines 1828-1916)

`CreateCopy` reads the `LOSSLESS`, `DISTANCE` and `QUALITY` creation options,
reports an error when mutually exclusive ones are given, and otherwise either
sets the lossless mode or computes a `fDistance` value passed to
`JxlEncoderSetFrameDistance`.  The `LOSSLESS` option is modelled after
`CPLTestBool` has been applied, i.e. as an `Option Bool`; `DISTANCE` and
`QUALITY` are modelled as parsed rational values.

The `quality < 30` branch computes `6.4 + pow(2.5, (30 - quality) / 5.0f) /
6.25`, a transcendental expression; it is modelled by an arbitrary function
parameter `expBranch` since no claim exercises it. -/

/-- Result of the compression-mode negotiation in `CreateCopy`:
an error for mutually exclusive options, lossless mode, or lossy mode
carrying the distance configured on the encoder. -/
inductive EncMode where
  | optionError : EncMode
  | lossless : EncMode
  | lossy : ℚ → EncMode
  deriving DecidableEq, Repr

/-- The distance computation of `CreateCopy` (jpegxl.cpp lines 1882-1904):
`fDistance` defaults to the `DISTANCE` option or `1.0`; a `QUALITY` option
overrides it through the two-segment piecewise formula taken from cjxl.cc;
finally any value in `[0.0, 0.1)` is floored to `0.1`
(`if (fDistance >= 0.0f && fDistance < 0.1f) fDistance = 0.1f;`). -/
def computeFDistance (expBranch : ℚ → ℚ) (distance quality : Option ℚ) : ℚ :=
  let fDistance : ℚ := match distance with
    | some d => d
    | none => 1
  let fDistance : ℚ := match quality with
    | some q =>
      if q ≥ 100 then 0
      else if q ≥ 30 then 1/10 + (100 - q) * (9/100)
      else expBranch q
    | none => fDistance
  if 0 ≤ fDistance ∧ fDistance < 1/10 then 1/10 else fDistance

/-- The compression-mode selection of `CreateCopy` (jpegxl.cpp lines
1828-1916): `bLossless` is true when no option among `LOSSLESS`, `DISTANCE`,
`QUALITY` is given or when `LOSSLESS` is given and tests true; the three
pairwise mutual-exclusion errors are reported first; otherwise the lossless
flag is set, or the computed `fDistance` is configured on the frame. -/
def selectEncMode (expBranch : ℚ → ℚ) (lossless : Option Bool)
    (distance quality : Option ℚ) : EncMode :=
  let bLossless := (lossless = none ∧ distance = none ∧ quality = none) ∨
    lossless = some true
  if lossless = some true ∧ distance.isSome then .optionError
  else if lossless = some true ∧ quality.isSome then .optionError
  else if distance.isSome ∧ quality.isSome then .optionError
  else if bLossless then .lossless
  else .lossy (computeFDistance expBranch distance quality)

/-! ## Bit-depth rescaling

Decode side (`GetDecodedImage(void*, size_t)`, jpegxl.cpp lines 1429-1464):
when the declared bit depth `m_nBits` is below the container width, every
sample of the primary buffer and of each extra-channel buffer is replaced by
`(s * nMaxVal + nHalfMaxWidth) / T` where `nMaxVal = (1 << m_nBits) - 1`,
`T` is 255 or 65535 and `nHalfMaxWidth` is 127 or 32767: the full-range
container sample is compressed to the declared bit depth.

Encode side (`CreateCopy`, jpegxl.cpp lines 2432-2468): every source sample
is clamped to `nMaxVal` and replaced by
`(min(s, nMaxVal) * T + nMaxVal / 2) / nMaxVal`: the declared-depth sample is
expanded to the full container range. -/

/-- Decode-side per-sample rescale for the 8-bit container
(jpegxl.cpp line 1443-1444): `(panData[i] * nMaxVal + 127) / 255`, with the
final truncating cast to `GByte` modelled by `% 256`. -/
def decodeRescaleByteSample (nBits s : ℕ) : ℕ :=
  (s * (2 ^ nBits - 1) + 127) / 255 % 256

/-- Decode-side per-sample rescale for the 16-bit container
(jpegxl.cpp line 1453-1454): `(panData[i] * nMaxVal + 32767) / 65535`, with
the final truncating cast to `uint16_t` modelled by `% 65536`. -/
def decodeRescaleUInt16Sample (nBits s : ℕ) : ℕ :=
  (s * (2 ^ nBits - 1) + 32767) / 65535 % 65536

/-- Encode-side per-sample rescale for the 8-bit container
(jpegxl.cpp lines 2448-2452):
`(min(panData[i], nMaxVal) * 255 + nMaxVal / 2) / nMaxVal` cast to `GByte`. -/
def encodeRescaleByteSample (nBits s : ℕ) : ℕ :=
  (min s (2 ^ nBits - 1) * 255 + (2 ^ nBits - 1) / 2) / (2 ^ nBits - 1) % 256

/-- Encode-side per-sample rescale for the 16-bit container
(jpegxl.cpp lines 2460-2464):
`(min(panData[i], nMaxVal) * 65535 + nMaxVal / 2) / nMaxVal` cast to
`uint16_t`. -/
def encodeRescaleUInt16Sample (nBits s : ℕ) : ℕ :=
  (min s (2 ^ nBits - 1) * 65535 + (2 ^ nBits - 1) / 2) / (2 ^ nBits - 1)
    % 65536

/-- The in-place sample loop of the decode-side `Rescale` lambda
(jpegxl.cpp lines 1441-1445), modelled as a structural walk over the buffer:
each cell is overwritten by the rescaled value of its previous content. -/
def decodeRescaleLoopByte (nBits : ℕ) : List ℕ → List ℕ
  | [] => []
  | s :: rest => decodeRescaleByteSample nBits s :: decodeRescaleLoopByte nBits rest

/-- The in-place sample loop of the decode-side `Rescale` lambda for the
16-bit container (jpegxl.cpp lines 1451-1455). -/
def decodeRescaleLoopUInt16 (nBits : ℕ) : List ℕ → List ℕ
  | [] => []
  | s :: rest =>
    decodeRescaleUInt16Sample nBits s :: decodeRescaleLoopUInt16 nBits rest

/-- The decoded image of a dataset: one pixel-interleaved primary buffer and
one standalone buffer per non-alpha extra channel (`m_abyImage`,
`m_abyExtraChannels`). -/
structure DecodedBuffers where
  primary : List ℕ
  extras : List (List ℕ)
  deriving DecidableEq, Repr

/-- Application of the decode-side `Rescale` lambda to the primary buffer and
to each extra-channel buffer, as performed at jpegxl.cpp lines 1459-1463
(`Rescale(pabyOutputData, ...)` then `Rescale(m_abyExtraChannels[i], 1)` for
each `i`), for the 8-bit container. -/
def decodeRescaleAllByte (nBits : ℕ) (buf : DecodedBuffers) : DecodedBuffers :=
  { primary := decodeRescaleLoopByte nBits buf.primary
    extras := buf.extras.map (decodeRescaleLoopByte nBits) }

/-- Application of the decode-side `Rescale` lambda to the primary buffer and
to each extra-channel buffer for the 16-bit container. -/
def decodeRescaleAllUInt16 (nBits : ℕ) (buf : DecodedBuffers) :
    DecodedBuffers :=
  { primary := decodeRescaleLoopUInt16 nBits buf.primary
    extras := buf.extras.map (decodeRescaleLoopUInt16 nBits) }

/-- Modelled from the spec (claim C3's wording, for refutation): the claimed
decode-side mapping `s ↦ round(s * (2^target - 1) / (2^b - 1))` expanding a
declared-depth sample to the 8-bit container range, with truncating half-up
integer arithmetic. -/
def claimedExpandByteSample (nBits s : ℕ) : ℕ :=
  (s * 255 + (2 ^ nBits - 1) / 2) / (2 ^ nBits - 1)

/-! ## JPEG reconstruction: marker splicing (GetMetadataItem, lines 1133-1265)

After the reconstructed JPEG bitstream `jpeg_bytes` has been recovered, the
code may splice an EXIF APP1 segment and an XMP APP1 segment into it.  Both
use the same scan: starting at offset 2, walk marker segments (`0xFF tag len
...`) until a non-`0xFF` byte or a SOS (`0xFFDA`) marker; remember the
position just past a JFIF APP0 segment as the insertion point; stop with
`found` when an APP1 segment carrying the target signature is seen. -/

/-- `JFIF_SIGNATURE` (jpegxl.cpp line 1136): `J F I F \0`. -/
def JFIF_SIGNATURE : List ℕ := [0x4A, 0x46, 0x49, 0x46, 0]

/-- `EXIF_SIGNATURE` (jpegxl.cpp lines 1139-1140): `E x i f \0 \0`. -/
def EXIF_SIGNATURE : List ℕ := [0x45, 0x78, 0x69, 0x66, 0, 0]

/-- `APP1_XMP_SIGNATURE` (jpegxl.cpp lines 1204-1205):
the bytes of `http://ns.adobe.com/xap/1.0/` with a trailing NUL
(the C `sizeof` of the literal counts the terminator). -/
def APP1_XMP_SIGNATURE : List ℕ :=
  (String.toList "http://ns.adobe.com/xap/1.0/").map Char.toNat ++ [0]

/-- Result of the marker scan: insertion position (0 when no JFIF APP0 was
seen) and whether an APP1 segment with the target signature already exists. -/
structure MarkerScan where
  insertPos : ℕ
  found : Bool
  deriving DecidableEq, Repr

/-- The marker-scan loop of `GetMetadataItem` (jpegxl.cpp lines 1149-1178 for
EXIF, identically lines 1213-1242 for XMP), parametrized by the APP1
signature searched for.  `loc` is `nChunkLoc`, `insertPos` is `nInsertPos`. -/
def scanMarkers (sig jpeg : List ℕ) (loc insertPos : ℕ) : MarkerScan :=
  if h : loc + 4 ≤ jpeg.length then
    if jpeg.getD loc 0 ≠ 0xFF ∨ jpeg.getD (loc + 1) 0 = 0xDA then
      ⟨insertPos, false⟩
    else
      let len := jpeg.getD (loc + 2) 0 * 256 + jpeg.getD (loc + 3) 0
      if jpeg.getD loc 0 = 0xFF ∧ jpeg.getD (loc + 1) 0 = 0xE0 ∧
          loc + 4 + JFIF_SIGNATURE.length ≤ jpeg.length ∧
          (jpeg.drop (loc + 4)).take JFIF_SIGNATURE.length = JFIF_SIGNATURE then
        scanMarkers sig jpeg (loc + 2 + len) (loc + 2 + len)
      else if jpeg.getD loc 0 = 0xFF ∧ jpeg.getD (loc + 1) 0 = 0xE1 ∧
          loc + 4 + sig.length ≤ jpeg.length ∧
          (jpeg.drop (loc + 4)).take sig.length = sig then
        ⟨insertPos, true⟩
      else
        scanMarkers sig jpeg (loc + 2 + len) insertPos
  else ⟨insertPos, false⟩
termination_by jpeg.length - loc
decreasing_by
  all_goals omega

/-- The splice of a new APP1 marker segment (jpegxl.cpp lines 1179-1201 for
EXIF, lines 1243-1264 for XMP): when the signature was not found and an
insertion point exists, insert `FF E1`, the big-endian two-byte total segment
length, the signature and the payload at the insertion point. -/
def spliceMarkerSegment (sig payload jpeg : List ℕ) : List ℕ :=
  let sz := 2 + sig.length + payload.length
  let scan := scanMarkers sig jpeg 2 0
  if scan.found = false ∧ 0 < scan.insertPos then
    jpeg.take scan.insertPos ++ [0xFF, 0xE1, sz / 256 % 256, sz % 256] ++
      sig ++ payload ++ jpeg.drop scan.insertPos
  else jpeg

/-- The EXIF insertion condition and splice (jpegxl.cpp lines 1138-1202):
performed unless the query was `CODESTREAM_WITHOUT_EXIF`, and only when the
marker size `2 + sizeof(EXIF_SIGNATURE) + m_abyEXIFBox.size()` fits 65535
bytes.  The retained EXIF box content is `exifBox`. -/
def insertEXIFInJPEG (withoutEXIF : Bool) (exifBox jpeg : List ℕ) : List ℕ :=
  let sz := 2 + EXIF_SIGNATURE.length + exifBox.length
  if withoutEXIF = false ∧ sz ≤ 65535 then
    spliceMarkerSegment EXIF_SIGNATURE exifBox jpeg
  else jpeg

/-- The XMP insertion condition and splice (jpegxl.cpp lines 1204-1265):
performed only when the retained XMP string is non-empty and the marker size
fits 65535 bytes. -/
def insertXMPInJPEG (xmp jpeg : List ℕ) : List ℕ :=
  let sz := 2 + APP1_XMP_SIGNATURE.length + xmp.length
  if xmp ≠ [] ∧ sz ≤ 65535 then spliceMarkerSegment APP1_XMP_SIGNATURE xmp jpeg
  else jpeg

/-- The whole post-processing of the reconstructed bitstream
(jpegxl.cpp lines 1133-1265): both insertions, applied when the
reconstructed stream is non-empty and below `INT_MAX` bytes. -/
def postprocessReconstructedJPEG (withoutEXIF : Bool)
    (exifBox xmp jpeg : List ℕ) : List ℕ :=
  if jpeg ≠ [] ∧ jpeg.length < 2 ^ 31 then
    insertXMPInJPEG xmp (insertEXIFInJPEG withoutEXIF exifBox jpeg)
  else jpeg

/-! ## Lossless JPEG embedding: sanitization pass (CreateCopy, lines 1948-2031)

When the source dataset is a JPEG file and lossless mode is requested, the
source bitstream is read and sanitized before being handed to
`JxlEncoderAddJPEGFrame`: a trailing length-prefixed mask blob after the EOI
marker is removed, and the marker segments before the entropy-coded data are
filtered. -/

/-- Removal of a trailing zlib-compressed mask band (jpegxl.cpp lines
1959-1974): the last four bytes, read little-endian, give a candidate image
size `nImageSize`; if it is `> 2`, at least half the file size, at most the
file size minus 4, and points just past an EOI (`FF D9`) marker, the stream
is truncated to that size. -/
def stripTrailingMask (jpeg : List ℕ) : List ℕ :=
  let L := jpeg.length
  if 4 < L then
    let n := jpeg.getD (L - 4) 0 + 256 * jpeg.getD (L - 3) 0 +
      65536 * jpeg.getD (L - 2) 0 + 16777216 * jpeg.getD (L - 1) 0
    if 2 < n ∧ L / 2 ≤ n ∧ n ≤ L - 4 ∧ jpeg.getD (n - 2) 0 = 0xFF ∧
        jpeg.getD (n - 1) 0 = 0xD9 then
      jpeg.take n
    else jpeg
  else jpeg

/-- The marker-filter loop of the JPEG embedding path (jpegxl.cpp lines
1986-2029).  `acc` is `abyJPEGMod`, `i` the read cursor.  A non-`0xFF` byte
clears the accumulator (invalid stream); a marker that is neither APPn nor
COM ends the scan with everything from it onward appended; a truncated
length field clears the accumulator; a COM or APP0 segment is copied, other
APPn segments are skipped. -/
def sanitizeLoop (jpeg acc : List ℕ) (i : ℕ) : List ℕ :=
  if h : i + 1 < jpeg.length then
    let m := jpeg.getD (i + 1) 0
    if jpeg.getD i 0 ≠ 0xFF then []
    else if m &&& 0xF0 ≠ 0xE0 ∧ m ≠ 0xFE then acc ++ jpeg.drop i
    else if jpeg.length ≤ i + 3 then []
    else
      let len := jpeg.getD (i + 2) 0 * 256 + jpeg.getD (i + 3) 0
      let acc2 :=
        if (m = 0xFE ∨ m = 0xE0) ∧ i + 2 + len ≤ jpeg.length then
          acc ++ (jpeg.drop i).take (2 + len)
        else acc
      sanitizeLoop jpeg acc2 (i + 2 + len)
  else acc
termination_by jpeg.length - i
decreasing_by
  all_goals omega

/-- The sanitization pass of the JPEG embedding path (jpegxl.cpp lines
1957-2030): when the source bytes carry a JPEG SOI header and more than two
bytes, strip the trailing mask blob, then keep the SOI and run the
marker-filter loop from offset 2. -/
def prepareJPEGForEmbedding (fileBytes : List ℕ) : List ℕ :=
  if fileBytes.getD 0 0 = 0xFF ∧ fileBytes.getD 1 0 = 0xD8 ∧
      2 < fileBytes.length then
    let abyJPEG := stripTrailingMask fileBytes
    sanitizeLoop abyJPEG (abyJPEG.take 2) 2
  else fileBytes

/-! ## The initial open loop (JPEGXLDataset::Open, jpegxl.cpp lines 404-771)

`Open` drives `JxlDecoderProcessInput` in a loop subscribed to basic-info,
box and color-encoding events.  The engine is modelled as a list of the
events it returns, one per `JxlDecoderProcessInput` call; the byte source is
modelled by the list of the sizes of the successive successful `VSIFReadL`
reads (empty list = next read returns 0 bytes).  Engine setter calls
(`JxlDecoderSetInput`, `JxlDecoderSetBoxBuffer`, ...) and memory allocations
are modelled as succeeding; their failure branches only warn and skip the
box, or abort the open, and no claim under study exercises them. -/

/-- One event returned by `JxlDecoderProcessInput` during the open loop.
A `box` event carries the box tag, the raw size reported by
`JxlDecoderGetBoxSizeRaw` and the payload the engine would deliver into the
registered box buffer. -/
inductive JxlEvent where
  | success
  | needMoreInput
  | basicInfo (ok : Bool)
  | box (tag : String) (rawSize : ℕ) (payload : List ℕ)
  | boxNeedMoreOutput
  | colorEncoding
  | unexpected
  deriving DecidableEq, Repr

/-- The mutable state of the open loop: the box currently being read
(`osCurrentBox` plus the bytes delivered into `abyBoxBuffer`), the box
buffer size, the retained metadata (`m_osXMP`, `m_abyEXIFBox`,
`abyJumbBoxBuffer`), the `jbrd` presence flag, `bGotInfo`, the number of
warnings emitted and the remaining reads of the byte source. -/
structure OpenState where
  currentBox : Option (String × List ℕ)
  boxBufSize : ℕ
  xmp : Option (List ℕ)
  exif : Option (List ℕ)
  jumb : Option (List ℕ)
  jbrd : Bool
  gotInfo : Bool
  warnings : ℕ
  feeder : List ℕ
  deriving DecidableEq, Repr

/-- The byte prefix `<?xpacket` tested on `xml ` boxes
(jpegxl.cpp line 332). -/
def xpacketSig : List ℕ := (String.toList "<?xpacket").map Char.toNat

/-- The `ProcessCurrentBox` lambda (jpegxl.cpp lines 323-402): classify and
retain the payload of the box that just closed — `xml ` only when no XMP was
retained yet and the payload starts with `<?xpacket`; `Exif` only when no
EXIF was retained yet, the payload is longer than 12 bytes, starts with four
zero bytes and carries a TIFF byte-order marker in byte 4 (the retained
block drops the 4 leading zero bytes); `jumb` unconditionally, last one
wins.  The current box is cleared in every case. -/
def processCurrentBox (s : OpenState) : OpenState :=
  match s.currentBox with
  | none => s
  | some (tag, data) =>
    let s' :=
      if tag = "xml " ∧ s.xmp = none ∧ data.take 9 = xpacketSig then
        { s with xmp := some data }
      else if tag = "Exif" ∧ s.exif = none ∧ 12 < data.length ∧
          data.getD 0 0 = 0 ∧ data.getD 1 0 = 0 ∧ data.getD 2 0 = 0 ∧
          data.getD 3 0 = 0 ∧
          (data.getD 4 0 = 0x4D ∨ data.getD 4 0 = 0x49) then
        { s with exif := some (data.drop 4) }
      else if tag = "jumb" then { s with jumb := some data }
      else s
    { s' with currentBox := none }

/-- Outcome of one iteration of the open loop: continue, leave the loop
(`break`), or abort `Open` with failure (`return false`). -/
inductive OpenStep where
  | cont (s : OpenState)
  | halt (s : OpenState)
  | fail (s : OpenState)
  deriving DecidableEq, Repr

/-- The state carried by an iteration outcome. -/
def OpenStep.state : OpenStep → OpenState
  | .cont s => s
  | .halt s => s
  | .fail s => s

/-- Whether an event triggers the pending-box processing at the top of the
open loop (jpegxl.cpp line 418: `status == JXL_DEC_SUCCESS || status ==
JXL_DEC_BOX`). -/
def JxlEvent.closesBox : JxlEvent → Bool
  | .success => true
  | .box _ _ _ => true
  | _ => false

/-- One iteration of the open loop (jpegxl.cpp lines 413-735) on one engine
event.  For `SUCCESS` and `BOX` events a pending box is processed first
(lines 418-431).  `NEED_MORE_INPUT` with a zero-byte read closes the input
and leaves the loop; `BASIC_INFO` records `bGotInfo` and aborts on invalid
geometry or an unmapped sample type; a recognized box whose raw size
exceeds the ceiling is skipped with a warning; `jbrd` only records a flag;
`BOX_NEED_MORE_OUTPUT` doubles the buffer, discarding the box with a
warning when the doubled size exceeds the ceiling; an unexpected event
warns and leaves the loop. -/
def openLoopDispatch (ceiling : ℕ) (s : OpenState) (ev : JxlEvent) :
    OpenStep :=
  match ev with
  | .success => .halt s
  | .needMoreInput =>
    match s.feeder with
    | [] => .halt s
    | _ :: rest => .cont { s with feeder := rest }
  | .basicInfo ok =>
    if ok then .cont { s with gotInfo := true }
    else .fail { s with gotInfo := true }
  | .box tag rawSize payload =>
    if tag = "xml " ∨ tag = "Exif" ∨ tag = "jumb" then
      if ceiling < rawSize then .cont { s with warnings := s.warnings + 1 }
      else
        .cont { s with
          boxBufSize := if s.boxBufSize < rawSize then rawSize else s.boxBufSize
          currentBox := some (tag, payload) }
    else if tag = "jbrd" then .cont { s with jbrd := true }
    else .cont s
  | .boxNeedMoreOutput =>
    if ceiling < s.boxBufSize * 2 then
      .cont { s with warnings := s.warnings + 1, currentBox := none }
    else .cont { s with boxBufSize := s.boxBufSize * 2 }
  | .colorEncoding => .cont s
  | .unexpected => .halt { s with warnings := s.warnings + 1 }

/-- One full iteration of the open loop: the pending-box processing at the
loop top (for `SUCCESS` and `BOX` events) followed by the event dispatch. -/
def openLoopStep (ceiling : ℕ) (s : OpenState) (ev : JxlEvent) : OpenStep :=
  openLoopDispatch ceiling
    (if ev.closesBox ∧ s.currentBox ≠ none then processCurrentBox s else s)
    ev

/-- Running the open loop over a list of engine events.  On loop exit the
post-loop check of jpegxl.cpp lines 767-771 applies: `Open` succeeds exactly
when basic info was received. -/
def runOpenLoop (ceiling : ℕ) (s : OpenState) :
    List JxlEvent → OpenState × Bool
  | [] => (s, s.gotInfo)
  | ev :: evs =>
    match openLoopStep ceiling s ev with
    | .cont s' => runOpenLoop ceiling s' evs
    | .halt s' => (s', s'.gotInfo)
    | .fail s' => (s', false)

/-! ## The full-image decode loop and the pixel-access layer

`GetDecodedImage(void*, size_t)` (jpegxl.cpp lines 1291-1465) rewinds the
decoder and drives it subscribed to `JXL_DEC_FULL_IMAGE`.  Every failure
branch sets `m_bDecodingFailed` and leaves the loop.  The cached variant
`GetDecodedImage()` (lines 914-969), `JPEGXLRasterBand::IReadBlock` (lines
168-200) and `JPEGXLDataset::IRasterIO` (lines 1471-1582) sit on top. -/

/-- One event returned by `JxlDecoderProcessInput` during the full-image
loop.  `needImageOutBuffer` carries the buffer size reported by
`JxlDecoderImageOutBufferSize`. -/
inductive DecEvent where
  | error
  | needMoreInput
  | success
  | fullImage
  | needImageOutBuffer (reportedSize : ℕ)
  | unexpectedState
  deriving DecidableEq, Repr

/-- The state of the full-image decode loop: the permanent failure flag
`m_bDecodingFailed` and the remaining reads of the byte source. -/
structure DecState where
  decodingFailed : Bool
  feeder : List ℕ
  deriving DecidableEq, Repr

/-- Outcome of one iteration of the full-image loop: continue or leave. -/
inductive DecStep where
  | cont (s : DecState)
  | halt (s : DecState)
  deriving DecidableEq, Repr

/-- One iteration of the full-image decode loop (jpegxl.cpp lines
1306-1427).  `JXL_DEC_ERROR` marks failure and leaves; `NEED_MORE_INPUT`
with a zero-byte read marks failure and leaves; `SUCCESS` leaves;
`FULL_IMAGE` continues; `NEED_IMAGE_OUT_BUFFER` marks failure and leaves
when the engine-reported buffer size differs from the allocated
`nOutputDataSize`, and otherwise registers the buffers and continues; any
other state only warns (lines 1422-1426) and continues. -/
def decLoopStep (nOutputDataSize : ℕ) (s : DecState) (ev : DecEvent) :
    DecStep :=
  match ev with
  | .error => .halt { s with decodingFailed := true }
  | .needMoreInput =>
    match s.feeder with
    | [] => .halt { s with decodingFailed := true }
    | _ :: rest => .cont { s with feeder := rest }
  | .success => .halt s
  | .fullImage => .cont s
  | .needImageOutBuffer reported =>
    if reported = nOutputDataSize then .cont s
    else .halt { s with decodingFailed := true }
  | .unexpectedState => .cont s

/-- Running the full-image decode loop over a list of engine events. -/
def runDecLoop (nOutputDataSize : ℕ) (s : DecState) :
    List DecEvent → DecState
  | [] => s
  | ev :: evs =>
    match decLoopStep nOutputDataSize s ev with
    | .cont s' => runDecLoop nOutputDataSize s' evs
    | .halt s' => s'

/-- Everything one decode attempt obtains from the engine and the byte
source: the event trace, the successive read sizes, and the pixel data a
successful run delivers into the registered buffer. -/
structure EngineRun where
  events : List DecEvent
  feeder : List ℕ
  data : List ℕ
  deriving DecidableEq, Repr

/-- The dataset fields relevant to pixel access: `m_bDecodingFailed` and the
cached full-image buffer `m_abyImage`. -/
structure Dataset where
  decodingFailed : Bool
  image : List ℕ
  deriving DecidableEq, Repr

/-- Whether the full-image loop of one engine run ends with the failure
flag set. -/
def decodeAttemptFails (run : EngineRun) (nOutputDataSize : ℕ) : Bool :=
  (runDecLoop nOutputDataSize ⟨false, run.feeder⟩ run.events).decodingFailed

/-- `GetDecodedImage(void*, size_t)` as seen from the dataset: run the
full-image loop; the failure flag is set by its failure branches and never
cleared. -/
def getDecodedImageInto (run : EngineRun) (nOutputDataSize : ℕ)
    (ds : Dataset) : Dataset :=
  { ds with decodingFailed :=
      ds.decodingFailed || decodeAttemptFails run nOutputDataSize }

/-- The cached `GetDecodedImage()` (jpegxl.cpp lines 914-969): return the
cache immediately when decoding already failed or an image is cached;
otherwise allocate and run one decode attempt, clearing the buffer and
setting the permanent failure flag when it fails.  Returns the new dataset
state, the reference returned to the caller, and whether the engine was
invoked (`JxlDecoderProcessInput` called).  Buffer allocation is modelled as
succeeding; an allocation failure likewise sets the permanent failure flag
without invoking the engine. -/
def getDecodedImageCached (run : EngineRun) (nOutputDataSize : ℕ)
    (ds : Dataset) : Dataset × List ℕ × Bool :=
  if ds.decodingFailed ∨ ds.image ≠ [] then (ds, ds.image, false)
  else if decodeAttemptFails run nOutputDataSize then
    ({ ds with decodingFailed := true, image := [] }, [], true)
  else ({ ds with image := run.data }, run.data, true)

/-- `JPEGXLRasterBand::IReadBlock` (jpegxl.cpp lines 168-200): fetch the
cached decoded image and fail when it is empty, otherwise copy the
requested row out of it.  Result: new state, `CE_None`?, engine invoked?.
Sub-rectangle raster requests are delegated to the generic base
implementation, which satisfies them through this block reader. -/
def IReadBlock (run : EngineRun) (nOutputDataSize : ℕ) (ds : Dataset) :
    Dataset × Bool × Bool :=
  match getDecodedImageCached run nOutputDataSize ds with
  | (ds', img, invoked) => (ds', img ≠ [], invoked)

/-- `JPEGXLDataset::IRasterIO` on a whole-image read request (jpegxl.cpp
lines 1490-1576): fail immediately when decoding already failed (line
1495); on the zero-copy path decode directly into the caller's buffer; on
the cached paths (bulk reinterleave, line 1527, or general strided copy,
line 1535) fetch the cached image and fail when it is empty.
`zeroCopyOK` abstracts the eligibility conjunction of lines 1511-1513. -/
def IRasterIOFullImage (run : EngineRun) (nOutputDataSize : ℕ)
    (zeroCopyOK : Bool) (ds : Dataset) : Dataset × Bool × Bool :=
  if ds.decodingFailed then (ds, false, false)
  else if zeroCopyOK then
    let ds' := getDecodedImageInto run nOutputDataSize ds
    (ds', !ds'.decodingFailed, true)
  else
    match getDecodedImageCached run nOutputDataSize ds with
    | (ds', img, invoked) => (ds', img ≠ [], invoked)

/-! ## Helper lemmas -/

/-- The quotient-remainder facts for a division by a positive divisor,
packaged for linear arithmetic. -/
theorem div_facts (A M : ℕ) (hM : 0 < M) :
    A / M * M ≤ A ∧ A < A / M * M + M := by
  constructor
  · exact Nat.div_mul_le_self A M
  · have h := Nat.div_add_mod A M
    have h2 := Nat.mod_lt A hM
    have hc : A / M * M = M * (A / M) := Nat.mul_comm _ _
    omega

/-- Exact round trip for the 8-bit container: expanding a declared-depth
sample with the encode-side rescale and compressing it back with the
decode-side rescale is the identity, for any declared maximum `M ≤ 127`. -/
theorem roundtrip_byte_core (M s : ℕ) (hM : 1 ≤ M) (hM' : M ≤ 127)
    (hs : s ≤ M) : ((s * 255 + M / 2) / M * M + 127) / 255 = s := by
  obtain ⟨h1, h2⟩ := div_facts (s * 255 + M / 2) M (by omega)
  set P := (s * 255 + M / 2) / M * M with hP
  omega

/-- Exact round trip for the 16-bit container, for any declared maximum
`M ≤ 32767`. -/
theorem roundtrip_u16_core (M s : ℕ) (hM : 1 ≤ M) (hM' : M ≤ 32767)
    (hs : s ≤ M) : ((s * 65535 + M / 2) / M * M + 32767) / 65535 = s := by
  obtain ⟨h1, h2⟩ := div_facts (s * 65535 + M / 2) M (by omega)
  set P := (s * 65535 + M / 2) / M * M with hP
  omega

/-- For `b ≤ c`, `2 ^ b - 1 ≤ 2 ^ c - 1`. -/
theorem pow_sub_one_mono {b c : ℕ} (h : b ≤ c) : 2 ^ b - 1 ≤ 2 ^ c - 1 := by
  have := Nat.pow_le_pow_right (show 0 < 2 by norm_num) h
  omega

/-- The truncating `GByte` cast of the decode-side rescale never wraps for
byte-range inputs: removal of the `% 256`. -/
theorem decodeRescaleByteSample_eq (b s : ℕ) (hb : b ≤ 8) (hs : s ≤ 255) :
    decodeRescaleByteSample b s = (s * (2 ^ b - 1) + 127) / 255 := by
  unfold decodeRescaleByteSample
  have hM : 2 ^ b - 1 ≤ 255 := by
    have := pow_sub_one_mono hb; simpa using this
  have hmul : s * (2 ^ b - 1) ≤ 255 * 255 :=
    Nat.mul_le_mul hs hM
  set X := s * (2 ^ b - 1) with hX
  omega

/-- Removal of the `% 65536` of the decode-side rescale for the 16-bit
container. -/
theorem decodeRescaleUInt16Sample_eq (b s : ℕ) (hb : b ≤ 16)
    (hs : s ≤ 65535) :
    decodeRescaleUInt16Sample b s = (s * (2 ^ b - 1) + 32767) / 65535 := by
  unfold decodeRescaleUInt16Sample
  have hM : 2 ^ b - 1 ≤ 65535 := by
    have := pow_sub_one_mono hb; simpa using this
  have hmul : s * (2 ^ b - 1) ≤ 65535 * 65535 :=
    Nat.mul_le_mul hs hM
  set X := s * (2 ^ b - 1) with hX
  omega

/-- Removal of the clamp and of the `% 256` of the encode-side rescale for
declared-depth inputs. -/
theorem encodeRescaleByteSample_eq (b s : ℕ) (hb : 1 ≤ b)
    (hs : s ≤ 2 ^ b - 1) :
    encodeRescaleByteSample b s = (s * 255 + (2 ^ b - 1) / 2) / (2 ^ b - 1) := by
  have hM : 1 ≤ 2 ^ b - 1 := by
    have := Nat.pow_le_pow_right (show 0 < 2 by norm_num) hb; omega
  have hflt : (s * 255 + (2 ^ b - 1) / 2) / (2 ^ b - 1) < 256 := by
    apply Nat.div_lt_of_lt_mul
    have hs255 : s * 255 ≤ (2 ^ b - 1) * 255 := Nat.mul_le_mul_right 255 hs
    have hc : 256 * (2 ^ b - 1) = (2 ^ b - 1) * 255 + (2 ^ b - 1) := by ring
    omega
  unfold encodeRescaleByteSample
  rw [min_eq_left hs, Nat.mod_eq_of_lt hflt]

/-- Removal of the clamp and of the `% 65536` of the encode-side rescale for
the 16-bit container. -/
theorem encodeRescaleUInt16Sample_eq (b s : ℕ) (hb : 1 ≤ b)
    (hs : s ≤ 2 ^ b - 1) :
    encodeRescaleUInt16Sample b s =
      (s * 65535 + (2 ^ b - 1) / 2) / (2 ^ b - 1) := by
  have hM : 1 ≤ 2 ^ b - 1 := by
    have := Nat.pow_le_pow_right (show 0 < 2 by norm_num) hb; omega
  have hflt : (s * 65535 + (2 ^ b - 1) / 2) / (2 ^ b - 1) < 65536 := by
    apply Nat.div_lt_of_lt_mul
    have hs65535 : s * 65535 ≤ (2 ^ b - 1) * 65535 :=
      Nat.mul_le_mul_right 65535 hs
    have hc : 65536 * (2 ^ b - 1) = (2 ^ b - 1) * 65535 + (2 ^ b - 1) := by
      ring
    omega
  unfold encodeRescaleUInt16Sample
  rw [min_eq_left hs, Nat.mod_eq_of_lt hflt]

/-- The decode-side in-place loop rescales every sample of the buffer. -/
theorem decodeRescaleLoopByte_eq_map (b : ℕ) (l : List ℕ) :
    decodeRescaleLoopByte b l = l.map (decodeRescaleByteSample b) := by
  induction l with
  | nil => rfl
  | cons s rest ih => simp [decodeRescaleLoopByte, ih]

/-- The decode-side in-place loop rescales every sample of the buffer,
16-bit container. -/
theorem decodeRescaleLoopUInt16_eq_map (b : ℕ) (l : List ℕ) :
    decodeRescaleLoopUInt16 b l = l.map (decodeRescaleUInt16Sample b) := by
  induction l with
  | nil => rfl
  | cons s rest ih => simp [decodeRescaleLoopUInt16, ih]

/-! ## Claim theorems -/

/-- C1: the claim states that `CreateCopy` with `QUALITY=100` (no `DISTANCE`,
no `LOSSLESS`) configures distance 0 (mathematically lossless) on the frame.
The code computes `fDistance = 0` in the `quality >= 100` branch, but the
subsequent floor `if (fDistance >= 0.0f && fDistance < 0.1f) fDistance =
0.1f` (line 1903) also catches 0, so the distance actually configured is
0.1, not 0 — contradicting the driver's own creation-option documentation
(`DISTANCE ... 0=mathematically lossless`, line 2624): the floor condition
applies to zero instead of only to positive sub-0.1 values. -/
theorem C1_quality100_distance_floored (expBranch : ℚ → ℚ) :
    selectEncMode expBranch none none (some 100) = .lossy (1/10) ∧
    (1/10 : ℚ) ≠ 0 := by
  refine ⟨?_, by norm_num⟩
  simp [selectEncMode, computeFDistance]

/-- C1, witness: the theorem applied at a concrete exponential branch. -/
theorem C1_quality100_distance_floored_witness :
    selectEncMode (fun _ => 0) none none (some 100) =
      .lossy (1/10) ∧ (1/10 : ℚ) ≠ 0 :=
  C1_quality100_distance_floored (fun _ => 0)

/-- C2, counterexample: the claim states that `QUALITY=30` yields a distance
of approximately 0.1; the code computes `0.1 + (100 - 30) * 0.09 = 6.4`,
which is not within 1/2 of 0.1. -/
theorem C2_quality30_distance_counterexample :
    computeFDistance (fun _ => 0) none (some 30) = 32/5 ∧
    ¬ |computeFDistance (fun _ => 0) none (some 30) - 1/10| ≤ 1/2 := by
  have h1 : computeFDistance (fun _ => 0) none (some 30) = 32/5 := by
    norm_num [computeFDistance]
  refine ⟨h1, ?_⟩
  rw [h1, show (32/5 : ℚ) - 1/10 = 63/10 by norm_num,
    abs_of_nonneg (show (0:ℚ) ≤ 63/10 by norm_num)]
  norm_num

/-- C2, amended: `CreateCopy` with `QUALITY=30` (no `DISTANCE`, no
`LOSSLESS`) configures distance 6.4, the upper boundary of the linear
segment of the quality-to-distance formula (0.1 is its value at quality
100, before the floor). -/
theorem C2_quality30_distance (expBranch : ℚ → ℚ) :
    selectEncMode expBranch none none (some 30) = .lossy (32/5) := by
  simp [selectEncMode, computeFDistance]
  norm_num

/-- C2, witness: the amended theorem applied at a concrete exponential
branch. -/
theorem C2_quality30_distance_witness :
    selectEncMode (fun _ => 0) none none (some 30) = .lossy (32/5) :=
  C2_quality30_distance (fun _ => 0)

/-- C10: `CreateCopy` in lossy mode with neither `DISTANCE` nor `QUALITY`
(i.e. `LOSSLESS=NO` alone) configures exactly distance 1.0 on the frame:
`fDistance` is initialized to 1.0 and the floor does not apply. -/
theorem C10_lossy_default_distance (expBranch : ℚ → ℚ) :
    selectEncMode expBranch (some false) none none = .lossy 1 := by
  simp [selectEncMode, computeFDistance]
  norm_num

/-- C10, witness: the theorem applied at a concrete exponential branch. -/
theorem C10_lossy_default_distance_witness :
    selectEncMode (fun _ => 0) (some false) none none = .lossy 1 :=
  C10_lossy_default_distance (fun _ => 0)

/-- C3, counterexample: the claim states that the decode-side rescale maps
a sample `s ∈ [0, 2^b - 1]` to `round(s * (2^target - 1) / (2^b - 1))`
(expansion).  At declared depth `b = 4` and sample `s = 15` the claimed
mapping yields 255, but the decode-side code computes
`(15 * 15 + 127) / 255 = 1`: the decode rescale compresses full-width
samples down to the declared depth; the expansion is performed on the
encode side. -/
theorem C3_decode_rescale_counterexample :
    decodeRescaleByteSample 4 15 = 1 ∧ claimedExpandByteSample 4 15 = 255 ∧
    decodeRescaleByteSample 4 15 ≠ claimedExpandByteSample 4 15 := by
  decide

/-- C3, amended: on decode, when the declared bit depth `b` is strictly
less than the container sample width (8 for Byte, 16 for UInt16), the
rescaling step maps every sample `s` of the full-width container range to
`round(s * (2^b - 1) / (2^target - 1))` using truncating half-up integer
arithmetic (bias equal to half the target maximum: 127 or 32767), i.e. it
compresses full-range samples to the declared bit depth — `2 * |target_max
* result - s * (2^b - 1)| ≤ target_max` — and it is applied uniformly to
every sample of the primary buffer and of each extra-channel buffer. -/
theorem C3_decode_rescale_compresses (b : ℕ) (buf : DecodedBuffers)
    (hb1 : 1 ≤ b) :
    (b < 8 →
      (decodeRescaleAllByte b buf).primary =
        buf.primary.map (decodeRescaleByteSample b) ∧
      (decodeRescaleAllByte b buf).extras =
        buf.extras.map (fun e => e.map (decodeRescaleByteSample b)) ∧
      (∀ s ≤ 255,
        decodeRescaleByteSample b s = (s * (2 ^ b - 1) + 127) / 255 ∧
        2 * (255 * decodeRescaleByteSample b s) ≤ 2 * (s * (2 ^ b - 1)) + 255 ∧
        2 * (s * (2 ^ b - 1)) ≤ 2 * (255 * decodeRescaleByteSample b s) + 255)) ∧
    (b < 16 →
      (decodeRescaleAllUInt16 b buf).primary =
        buf.primary.map (decodeRescaleUInt16Sample b) ∧
      (decodeRescaleAllUInt16 b buf).extras =
        buf.extras.map (fun e => e.map (decodeRescaleUInt16Sample b)) ∧
      (∀ s ≤ 65535,
        decodeRescaleUInt16Sample b s =
          (s * (2 ^ b - 1) + 32767) / 65535 ∧
        2 * (65535 * decodeRescaleUInt16Sample b s) ≤
          2 * (s * (2 ^ b - 1)) + 65535 ∧
        2 * (s * (2 ^ b - 1)) ≤
          2 * (65535 * decodeRescaleUInt16Sample b s) + 65535)) := by
  constructor
  · intro hb8
    refine ⟨?_, ?_, ?_⟩
    · simp [decodeRescaleAllByte, decodeRescaleLoopByte_eq_map]
    · simp [decodeRescaleAllByte, decodeRescaleLoopByte_eq_map]
    · intro s hs
      have he := decodeRescaleByteSample_eq b s (by omega) hs
      refine ⟨he, ?_, ?_⟩ <;>
      · rw [he]
        obtain ⟨h1, h2⟩ := div_facts (s * (2 ^ b - 1) + 127) 255 (by norm_num)
        set X := s * (2 ^ b - 1) with hX
        omega
  · intro hb16
    refine ⟨?_, ?_, ?_⟩
    · simp [decodeRescaleAllUInt16, decodeRescaleLoopUInt16_eq_map]
    · simp [decodeRescaleAllUInt16, decodeRescaleLoopUInt16_eq_map]
    · intro s hs
      have he := decodeRescaleUInt16Sample_eq b s (by omega) hs
      refine ⟨he, ?_, ?_⟩ <;>
      · rw [he]
        obtain ⟨h1, h2⟩ :=
          div_facts (s * (2 ^ b - 1) + 32767) 65535 (by norm_num)
        set X := s * (2 ^ b - 1) with hX
        omega

/-- C3, witness: the amended theorem applied at `b = 4` on a concrete
buffer, with the per-sample conclusion extracted at `s = 200`. -/
theorem C3_decode_rescale_compresses_witness :
    (1 ≤ 4 ∧ 4 < 8) ∧
    (decodeRescaleAllByte 4 ⟨[15, 200], [[255]]⟩).primary =
      [15, 200].map (decodeRescaleByteSample 4) ∧
    decodeRescaleByteSample 4 200 = (200 * 15 + 127) / 255 := by
  have h := C3_decode_rescale_compresses 4 ⟨[15, 200], [[255]]⟩ (by decide)
  refine ⟨by decide, (h.1 (by decide)).1, ?_⟩
  have := ((h.1 (by decide)).2.2 200 (by decide)).1
  simpa using this

/-- C4: for every declared bit depth `b` in `{1..7}` over the 8-bit
container and `{9..15}` over the 16-bit container, and every representable
sample `s ∈ [0, 2^b - 1]`, composing the encode-side rescale (expansion)
with the decode-side rescale (compression) returns to within 1 unit of `s`
(in fact exactly `s`). -/
theorem C4_rescale_roundtrip (b s : ℕ) (hs : s ≤ 2 ^ b - 1) :
    (1 ≤ b → b ≤ 7 →
      Nat.dist (decodeRescaleByteSample b (encodeRescaleByteSample b s)) s
        ≤ 1) ∧
    (9 ≤ b → b ≤ 15 →
      Nat.dist
        (decodeRescaleUInt16Sample b (encodeRescaleUInt16Sample b s)) s
        ≤ 1) := by
  constructor
  · intro hb1 hb7
    have hM : 1 ≤ 2 ^ b - 1 := by
      have := Nat.pow_le_pow_right (show 0 < 2 by norm_num) hb1; omega
    have hM' : 2 ^ b - 1 ≤ 127 := by
      have := pow_sub_one_mono hb7; simpa using this
    have henc := encodeRescaleByteSample_eq b s hb1 hs
    have hele : encodeRescaleByteSample b s ≤ 255 := by
      rw [henc]
      apply Nat.le_of_lt_succ
      apply Nat.div_lt_of_lt_mul
      have hs255 : s * 255 ≤ (2 ^ b - 1) * 255 := Nat.mul_le_mul_right 255 hs
      have hc : 256 * (2 ^ b - 1) = (2 ^ b - 1) * 255 + (2 ^ b - 1) := by ring
      omega
    have hdec := decodeRescaleByteSample_eq b (encodeRescaleByteSample b s)
      (by omega) hele
    rw [hdec, henc]
    rw [roundtrip_byte_core (2 ^ b - 1) s hM hM' hs]
    simp [Nat.dist]
  · intro hb9 hb15
    have hM : 1 ≤ 2 ^ b - 1 := by
      have := Nat.pow_le_pow_right (show 0 < 2 by norm_num)
        (show 1 ≤ b by omega)
      omega
    have hM' : 2 ^ b - 1 ≤ 32767 := by
      have := pow_sub_one_mono hb15; simpa using this
    have henc := encodeRescaleUInt16Sample_eq b s (by omega) hs
    have hele : encodeRescaleUInt16Sample b s ≤ 65535 := by
      rw [henc]
      apply Nat.le_of_lt_succ
      apply Nat.div_lt_of_lt_mul
      have hs655 : s * 65535 ≤ (2 ^ b - 1) * 65535 :=
        Nat.mul_le_mul_right 65535 hs
      have hc : 65536 * (2 ^ b - 1) = (2 ^ b - 1) * 65535 + (2 ^ b - 1) := by
        ring
      omega
    have hdec := decodeRescaleUInt16Sample_eq b
      (encodeRescaleUInt16Sample b s) (by omega) hele
    rw [hdec, henc]
    rw [roundtrip_u16_core (2 ^ b - 1) s hM hM' hs]
    simp [Nat.dist]

/-- C4, witness: the theorem applied at `b = 4`, `s = 9` for the 8-bit
container and `b = 12`, `s = 4000` for the 16-bit container. -/
theorem C4_rescale_roundtrip_witness :
    (9 ≤ 2 ^ 4 - 1 ∧ 1 ≤ 4 ∧ 4 ≤ 7 ∧
      Nat.dist (decodeRescaleByteSample 4 (encodeRescaleByteSample 4 9)) 9
        ≤ 1) ∧
    (4000 ≤ 2 ^ 12 - 1 ∧ 9 ≤ 12 ∧ 12 ≤ 15 ∧
      Nat.dist
        (decodeRescaleUInt16Sample 12 (encodeRescaleUInt16Sample 12 4000))
        4000 ≤ 1) :=
  ⟨⟨by decide, by decide, by decide,
    (C4_rescale_roundtrip 4 9 (by decide)).1 (by decide) (by decide)⟩,
   ⟨by decide, by decide, by decide,
    (C4_rescale_roundtrip 12 4000 (by decide)).2 (by decide) (by decide)⟩⟩

/-- A minimal reconstructed JPEG stream: SOI, a 16-byte JFIF APP0 segment
(bytes 2-19), then SOS.  The JFIF APP0 insertion point is offset 20. -/
def exJPEGWithJFIF : List ℕ :=
  [0xFF, 0xD8, 0xFF, 0xE0, 0x00, 0x10, 0x4A, 0x46, 0x49, 0x46, 0x00, 0x01,
   0x01, 0x00, 0x00, 0x01, 0x00, 0x01, 0x00, 0x00, 0xFF, 0xDA, 0x00, 0x02]

/-- C7, counterexample: the claim requires, among the conditions for
splicing a marker, that "the retained metadata of that kind exists and is
non-empty".  The code checks non-emptiness for XMP (`!m_osXMP.empty()`,
line 1208) but not for EXIF (line 1143): with an empty retained EXIF box
and a reconstructed stream containing a JFIF APP0 and no EXIF marker, a
10-byte APP1 segment with signature `Exif\0\0` and empty payload is spliced
in at offset 20 — the stream is modified although no EXIF metadata
exists. -/
theorem C7_exif_splice_without_metadata :
    insertEXIFInJPEG false [] exJPEGWithJFIF =
      exJPEGWithJFIF.take 20 ++ [0xFF, 0xE1, 0, 8] ++ EXIF_SIGNATURE ++
        exJPEGWithJFIF.drop 20 ∧
    insertEXIFInJPEG false [] exJPEGWithJFIF ≠ exJPEGWithJFIF := by
  constructor
  · simp [insertEXIFInJPEG, spliceMarkerSegment, scanMarkers,
      EXIF_SIGNATURE, JFIF_SIGNATURE, exJPEGWithJFIF]
  · intro h
    have := congrArg List.length h
    simp [insertEXIFInJPEG, spliceMarkerSegment, scanMarkers,
      EXIF_SIGNATURE, JFIF_SIGNATURE, exJPEGWithJFIF] at this

/-- C7, amended: a new APP1 marker segment of a given kind is spliced into
the reconstructed bitstream only when the resulting segment (2-byte length
+ signature + payload) does not exceed 65535 bytes, no marker of that kind
was found by the scan, and an insertion point immediately after a JFIF
APP0 marker was found; for XMP the retained metadata must additionally be
non-empty, while for EXIF non-emptiness is not required (only the
`CODESTREAM_WITHOUT_EXIF` query suppresses the splice).  When spliced, the
inserted segment carries a correct big-endian 2-byte length prefix. -/
theorem C7_marker_splice_conditions (withoutEXIF : Bool)
    (exifBox xmp jpeg sig payload : List ℕ) :
    ((scanMarkers sig jpeg 2 0).found = true ∨
        (scanMarkers sig jpeg 2 0).insertPos = 0 →
      spliceMarkerSegment sig payload jpeg = jpeg) ∧
    ((scanMarkers sig jpeg 2 0).found = false →
      0 < (scanMarkers sig jpeg 2 0).insertPos →
      2 + sig.length + payload.length ≤ 65535 →
      spliceMarkerSegment sig payload jpeg =
        jpeg.take (scanMarkers sig jpeg 2 0).insertPos ++
          [0xFF, 0xE1, (2 + sig.length + payload.length) / 256,
            (2 + sig.length + payload.length) % 256] ++ sig ++ payload ++
          jpeg.drop (scanMarkers sig jpeg 2 0).insertPos ∧
      256 * ((2 + sig.length + payload.length) / 256) +
          (2 + sig.length + payload.length) % 256 =
        2 + sig.length + payload.length) ∧
    insertXMPInJPEG [] jpeg = jpeg ∧
    (withoutEXIF = true → insertEXIFInJPEG withoutEXIF exifBox jpeg = jpeg) ∧
    (65535 < 2 + EXIF_SIGNATURE.length + exifBox.length →
      insertEXIFInJPEG withoutEXIF exifBox jpeg = jpeg) ∧
    (65535 < 2 + APP1_XMP_SIGNATURE.length + xmp.length →
      insertXMPInJPEG xmp jpeg = jpeg) ∧
    (withoutEXIF = false →
      2 + EXIF_SIGNATURE.length + exifBox.length ≤ 65535 →
      insertEXIFInJPEG withoutEXIF exifBox jpeg =
        spliceMarkerSegment EXIF_SIGNATURE exifBox jpeg) ∧
    (xmp ≠ [] → 2 + APP1_XMP_SIGNATURE.length + xmp.length ≤ 65535 →
      insertXMPInJPEG xmp jpeg =
        spliceMarkerSegment APP1_XMP_SIGNATURE xmp jpeg) := by
  refine ⟨?_, ?_, ?_, ?_, ?_, ?_, ?_, ?_⟩
  · intro hscan
    unfold spliceMarkerSegment
    rcases hscan with h | h <;> simp [h]
  · intro hfound hpos hsz
    have hdivlt : (2 + sig.length + payload.length) / 256 < 256 := by omega
    constructor
    · simp only [spliceMarkerSegment]
      rw [if_pos ⟨hfound, hpos⟩, Nat.mod_eq_of_lt hdivlt]
    · omega
  · simp [insertXMPInJPEG]
  · intro h; simp [insertEXIFInJPEG, h]
  · intro h; simp only [insertEXIFInJPEG]
    rw [if_neg]; omega
  · intro h; simp only [insertXMPInJPEG]
    rw [if_neg]
    rintro ⟨-, h2⟩; omega
  · intro h1 h2; simp only [insertEXIFInJPEG]
    rw [if_pos ⟨h1, h2⟩]
  · intro h1 h2; simp only [insertXMPInJPEG]
    rw [if_pos ⟨h1, h2⟩]

/-- C7, witness: the amended theorem applied on the concrete stream
`exJPEGWithJFIF`, empty retained XMP and a `CODESTREAM_WITHOUT_EXIF`
query. -/
theorem C7_marker_splice_conditions_witness :
    insertXMPInJPEG [] exJPEGWithJFIF = exJPEGWithJFIF ∧
    insertEXIFInJPEG true [] exJPEGWithJFIF = exJPEGWithJFIF :=
  ⟨(C7_marker_splice_conditions true [] [] exJPEGWithJFIF [] []).2.2.1,
   (C7_marker_splice_conditions true [] [] exJPEGWithJFIF [] []).2.2.2.1 rfl⟩

/-- A JPEG stream with a COM (`0xFFFE`) marker segment between the SOI and
the SOS. -/
def exJPEGWithCOM : List ℕ :=
  [0xFF, 0xD8, 0xFF, 0xFE, 0x00, 0x04, 0x41, 0x42, 0xFF, 0xDA, 0x00, 0x02]

/-- A JPEG stream with an APP1 (`0xFFE1`) marker segment between the SOI
and the SOS. -/
def exJPEGWithAPP1 : List ℕ :=
  [0xFF, 0xD8, 0xFF, 0xE1, 0x00, 0x04, 0x41, 0x42, 0xFF, 0xDA, 0x00, 0x02]

/-- C8: the claim (and the code's own comment at lines 1983-1985, "Rework
JPEG data to remove APP (except APP0) and COM markers") states that the
sanitization pass strips every COM marker segment.  The loop's copy
condition at line 2020 is `(bIsCOM || bIsAPP0)`, so a COM segment is
copied into the sanitized stream: on a stream with one COM segment the
pass returns the input unchanged, while an APP1 segment on the same
stream shape is stripped as documented. -/
theorem C8_com_markers_kept :
    prepareJPEGForEmbedding exJPEGWithCOM = exJPEGWithCOM ∧
    prepareJPEGForEmbedding exJPEGWithAPP1 =
      [0xFF, 0xD8, 0xFF, 0xDA, 0x00, 0x02] := by
  constructor <;>
    simp [prepareJPEGForEmbedding, stripTrailingMask, sanitizeLoop,
      exJPEGWithCOM, exJPEGWithAPP1] <;>
    decide

/-- C5: once a full-image decode attempt on a dataset instance has failed —
`m_bDecodingFailed` set and the cached image cleared — every subsequent
pixel-access request fails immediately with the engine not invoked and the
state unchanged (so the marker is never reset): the cached fetch used by
block reads returns the empty cache, `IReadBlock` returns `CE_Failure`,
and `IRasterIO` on a whole-image request returns `CE_Failure` for every
eligibility (zero-copy, bulk reinterleave or general strided copy).
Conversely a failing decode attempt from a clean state produces exactly
such a permanently-failed state. -/
theorem C5_permanent_failure_caching (run : EngineRun) (sz : ℕ)
    (ds : Dataset) (zeroCopyOK : Bool)
    (hf : ds.decodingFailed = true) (hi : ds.image = []) :
    getDecodedImageCached run sz ds = (ds, [], false) ∧
    IReadBlock run sz ds = (ds, false, false) ∧
    IRasterIOFullImage run sz zeroCopyOK ds = (ds, false, false) ∧
    (∀ (run2 : EngineRun) (sz2 : ℕ) (ds0 : Dataset),
      ds0.decodingFailed = false → ds0.image = [] →
      decodeAttemptFails run2 sz2 = true →
      getDecodedImageCached run2 sz2 ds0 =
        ({ ds0 with decodingFailed := true, image := [] }, [], true)) := by
  have h1 : getDecodedImageCached run sz ds = (ds, [], false) := by
    rw [← hi]
    simp [getDecodedImageCached, hf]
  refine ⟨h1, ?_, ?_, ?_⟩
  · simp [IReadBlock, h1]
  · simp [IRasterIOFullImage, hf]
  · intro run2 sz2 ds0 h0 hi0 hfail
    simp [getDecodedImageCached, h0, hi0, hfail]

/-- C5, witness: the theorem applied to a concrete failed dataset and a
concrete engine run whose decode attempt errors out. -/
theorem C5_permanent_failure_caching_witness :
    getDecodedImageCached ⟨[.error], [], [7]⟩ 0 ⟨true, []⟩ =
      (⟨true, []⟩, [], false) ∧
    IReadBlock ⟨[.error], [], [7]⟩ 0 ⟨true, []⟩ = (⟨true, []⟩, false, false) ∧
    IRasterIOFullImage ⟨[.error], [], [7]⟩ 0 true ⟨true, []⟩ =
      (⟨true, []⟩, false, false) ∧
    getDecodedImageCached ⟨[.error], [], [7]⟩ 0 ⟨false, []⟩ =
      (⟨true, []⟩, [], true) := by
  obtain ⟨h1, h2, h3, h4⟩ :=
    C5_permanent_failure_caching ⟨[.error], [], [7]⟩ 0 ⟨true, []⟩ true
      rfl rfl
  exact ⟨h1, h2, h3, h4 ⟨[.error], [], [7]⟩ 0 ⟨false, []⟩ rfl rfl rfl⟩

/-- The metadata slot of the open state that an `xml `, `Exif` or `jumb`
box would populate. -/
def boxMeta (tag : String) (s : OpenState) : Option (List ℕ) :=
  if tag = "xml " then s.xmp else if tag = "Exif" then s.exif else s.jumb

/-- `ProcessCurrentBox` clears the current box, and does not populate the
metadata slot of a recognized kind when the pending box is not of that
kind. -/
theorem processCurrentBox_retains (tagP : String) (s : OpenState)
    (htag : tagP = "xml " ∨ tagP = "Exif" ∨ tagP = "jumb")
    (hcb : ∀ p, s.currentBox ≠ some (tagP, p))
    (hm : boxMeta tagP s = none) :
    boxMeta tagP (processCurrentBox s) = none ∧
    (processCurrentBox s).currentBox = none := by
  rcases hc : s.currentBox with _ | ⟨tag, data⟩
  · constructor
    · simpa [processCurrentBox, hc] using hm
    · simp [processCurrentBox, hc]
  · have htagne : tag ≠ tagP := by
      intro he; exact hcb data (by rw [hc, he])
    rcases htag with h | h | h <;> subst h <;>
      simp only [boxMeta, if_pos rfl] at hm ⊢ <;>
      simp only [processCurrentBox, hc] <;>
      split_ifs with h1 h2 h3 <;>
      simp_all [boxMeta]

/-- The event dispatch of the open loop neither populates the metadata slot
of a recognized box kind whose events all stay above the ceiling, nor opens
a current box of that kind. -/
theorem openLoopDispatch_retains (ceiling : ℕ) (tagP : String)
    (s : OpenState) (ev : JxlEvent)
    (hm : boxMeta tagP s = none)
    (hcb : ∀ p, s.currentBox ≠ some (tagP, p))
    (hev : ∀ r p, ev = JxlEvent.box tagP r p → ceiling < r) :
    boxMeta tagP (openLoopDispatch ceiling s ev).state = none ∧
    (∀ p, (openLoopDispatch ceiling s ev).state.currentBox ≠
      some (tagP, p)) := by
  cases ev with
  | success => exact ⟨hm, hcb⟩
  | needMoreInput =>
    rcases hfd : s.feeder with _ | ⟨c, rest⟩ <;>
      simp only [openLoopDispatch, hfd, OpenStep.state] <;>
      exact ⟨by simpa [boxMeta] using hm, by simpa using hcb⟩
  | basicInfo ok =>
    rcases ok with _ | _ <;>
      simp only [openLoopDispatch, Bool.false_eq_true, if_false, if_true,
        OpenStep.state] <;>
      exact ⟨by simpa [boxMeta] using hm, by simpa using hcb⟩
  | box tag rawSize payload =>
    by_cases htag2 : tag = "xml " ∨ tag = "Exif" ∨ tag = "jumb"
    · by_cases hceil : ceiling < rawSize
      · simp only [openLoopDispatch, if_pos htag2, if_pos hceil,
          OpenStep.state]
        exact ⟨by simpa [boxMeta] using hm, by simpa using hcb⟩
      · have htagne : tag ≠ tagP := by
          intro he
          exact absurd (hev rawSize payload (by rw [he])) hceil
        simp only [openLoopDispatch, if_pos htag2, if_neg hceil,
          OpenStep.state]
        refine ⟨by simpa [boxMeta] using hm, ?_⟩
        intro p h
        simp only [Option.some.injEq, Prod.mk.injEq] at h
        exact htagne h.1
    · by_cases hjbrd : tag = "jbrd"
      · simp only [openLoopDispatch, if_neg htag2, if_pos hjbrd,
          OpenStep.state]
        exact ⟨by simpa [boxMeta] using hm, by simpa using hcb⟩
      · simp only [openLoopDispatch, if_neg htag2, if_neg hjbrd,
          OpenStep.state]
        exact ⟨hm, hcb⟩
  | boxNeedMoreOutput =>
    by_cases hdbl : ceiling < s.boxBufSize * 2
    · simp only [openLoopDispatch, if_pos hdbl, OpenStep.state]
      exact ⟨by simpa [boxMeta] using hm, by simp⟩
    · simp only [openLoopDispatch, if_neg hdbl, OpenStep.state]
      exact ⟨by simpa [boxMeta] using hm, by simpa using hcb⟩
  | colorEncoding => exact ⟨hm, hcb⟩
  | unexpected =>
    exact ⟨by simpa [boxMeta] using hm, by simpa using hcb⟩

/-- One full open-loop iteration preserves the absence of the metadata of a
recognized box kind whose events all stay above the ceiling. -/
theorem openLoopStep_retains (ceiling : ℕ) (tagP : String)
    (htag : tagP = "xml " ∨ tagP = "Exif" ∨ tagP = "jumb")
    (s : OpenState) (ev : JxlEvent)
    (hm : boxMeta tagP s = none)
    (hcb : ∀ p, s.currentBox ≠ some (tagP, p))
    (hev : ∀ r p, ev = JxlEvent.box tagP r p → ceiling < r) :
    boxMeta tagP (openLoopStep ceiling s ev).state = none ∧
    (∀ p, (openLoopStep ceiling s ev).state.currentBox ≠ some (tagP, p)) := by
  unfold openLoopStep
  split_ifs with h
  · have hps := processCurrentBox_retains tagP s htag hcb hm
    refine openLoopDispatch_retains ceiling tagP _ ev hps.1 ?_ hev
    intro p
    rw [hps.2]
    simp
  · exact openLoopDispatch_retains ceiling tagP s ev hm hcb hev

/-- Over the whole open loop, the metadata slot of a recognized box kind
stays absent when every box event of that kind in the trace reports a raw
size above the ceiling. -/
theorem runOpenLoop_retains (ceiling : ℕ) (tagP : String)
    (htag : tagP = "xml " ∨ tagP = "Exif" ∨ tagP = "jumb")
    (evs : List JxlEvent) :
    ∀ (s : OpenState),
      boxMeta tagP s = none →
      (∀ p, s.currentBox ≠ some (tagP, p)) →
      (∀ r p, JxlEvent.box tagP r p ∈ evs → ceiling < r) →
      boxMeta tagP (runOpenLoop ceiling s evs).1 = none := by
  induction evs with
  | nil => intro s hm hcb hev; simpa [runOpenLoop] using hm
  | cons ev evs ih =>
    intro s hm hcb hev
    have hevtail : ∀ r p, JxlEvent.box tagP r p ∈ evs → ceiling < r :=
      fun r p hmem => hev r p (List.mem_cons_of_mem _ hmem)
    have hevhead : ∀ r p, ev = JxlEvent.box tagP r p → ceiling < r :=
      fun r p he => hev r p (he ▸ List.mem_cons_self _ _)
    have hprops := openLoopStep_retains ceiling tagP htag s ev hm hcb hevhead
    rcases hstep : openLoopStep ceiling s ev with s' | s' | s' <;>
      rw [hstep] at hprops <;>
      simp only [OpenStep.state] at hprops <;>
      simp only [runOpenLoop, hstep]
    · exact ih s' hprops.1 hprops.2 hevtail
    · exact hprops.1
    · exact hprops.1

/-- C6: during the open loop, a recognized box (`xml `, `Exif`, `jumb`)
whose engine-reported raw size exceeds the configured ceiling (default
100000000 bytes) is skipped: the iteration emits exactly one warning and
changes nothing else — in particular no buffer of the reported size is
allocated (the box-buffer size is unchanged) and no current box is opened,
so the box's payload is never captured — and the loop continues (`.cont`,
no hard failure).  Consequently, when every box event of that kind in the
trace reports a size above the ceiling, the corresponding metadata
(XMP string / EXIF block / georeferencing payload) is still absent after
the loop ends. -/
theorem C6_box_ceiling_enforcement (ceiling rawSize : ℕ) (s : OpenState)
    (tag : String) (payload : List ℕ) (evs : List JxlEvent)
    (htag : tag = "xml " ∨ tag = "Exif" ∨ tag = "jumb")
    (hover : ceiling < rawSize) (hcb : s.currentBox = none) :
    openLoopStep ceiling s (.box tag rawSize payload) =
      .cont { s with warnings := s.warnings + 1 } ∧
    (boxMeta tag s = none →
      (∀ r p, JxlEvent.box tag r p ∈ evs → ceiling < r) →
      boxMeta tag
        (runOpenLoop ceiling s (.box tag rawSize payload :: evs)).1 =
        none) := by
  constructor
  · unfold openLoopStep
    rw [if_neg (by simp [hcb])]
    simp only [openLoopDispatch, if_pos htag, if_pos hover]
  · intro hm hev
    refine runOpenLoop_retains ceiling tag htag _ s hm ?_ ?_
    · intro p; rw [hcb]; simp
    · intro r p hmem
      rcases List.mem_cons.mp hmem with he | hmem2
      · simp only [JxlEvent.box.injEq] at he
        rw [he.2.1]; exact hover
      · exact hev r p hmem2

/-- The open state right after decoder construction (jpegxl.cpp lines
316-321): no current box, a 1 MiB box buffer, no retained metadata, basic
info not yet received; here with an exhausted byte source. -/
def exOpenState : OpenState :=
  ⟨none, 1048576, none, none, none, false, false, 0, []⟩

/-- C6, witness: the theorem applied at the default 100000000-byte ceiling
to an `xml ` box reporting 200000000 bytes. -/
theorem C6_box_ceiling_enforcement_witness :
    openLoopStep 100000000 exOpenState (.box "xml " 200000000 []) =
      .cont { exOpenState with warnings := exOpenState.warnings + 1 } ∧
    boxMeta "xml "
      (runOpenLoop 100000000 exOpenState [.box "xml " 200000000 []]).1 =
      none := by
  have h := C6_box_ceiling_enforcement 100000000 200000000 exOpenState
    "xml " [] [] (Or.inl rfl) (by norm_num) rfl
  exact ⟨h.1, h.2 rfl (fun r p hm => absurd hm (List.not_mem_nil _))⟩

/-- C9, counterexample: the claim states that a zero-byte read when the
engine needs more input always terminates the decode operation as a
failure.  In the open loop (jpegxl.cpp lines 438-463) a zero-byte read
instead closes the input and leaves the loop normally: on a trace that
delivers basic info and then requests more input from an exhausted source,
`Open` succeeds. -/
theorem C9_zero_read_open_succeeds :
    (runOpenLoop 100000000 exOpenState
      [.basicInfo true, .needMoreInput]).2 = true := rfl

/-- C9, amended: in the full-image decode loop a zero-byte read at a
`NEED_MORE_INPUT` event marks the permanent failure flag and terminates
the decode immediately — the remaining engine events are never processed,
so the failed read is never retried; in the initial open loop a zero-byte
read closes the input and exits the loop, and `Open` then fails only if
basic info was never received. -/
theorem C9_zero_read_terminal (sz ceiling : ℕ) (s : DecState)
    (so : OpenState) (evs : List DecEvent) (evso : List JxlEvent)
    (hf : s.feeder = []) (hfo : so.feeder = []) :
    runDecLoop sz s (.needMoreInput :: evs) =
      { s with decodingFailed := true } ∧
    runOpenLoop ceiling so (.needMoreInput :: evso) = (so, so.gotInfo) := by
  constructor
  · simp [runDecLoop, decLoopStep, hf]
  · simp [runOpenLoop, openLoopStep, openLoopDispatch, JxlEvent.closesBox,
      hfo]

/-- C9, witness: the amended theorem applied to concrete exhausted-source
states; the full-image loop ignores the trailing events after the failed
read. -/
theorem C9_zero_read_terminal_witness :
    runDecLoop 0 ⟨false, []⟩ [.needMoreInput, .success, .fullImage] =
      ⟨true, []⟩ ∧
    runOpenLoop 100000000 exOpenState [.needMoreInput, .basicInfo true] =
      (exOpenState, false) :=
  C9_zero_read_terminal 0 100000000 ⟨false, []⟩ exOpenState
    [.success, .fullImage] [.basicInfo true] rfl rfl

end JPEGXL
